import Mathlib

/-!
Shallow embedding of the real-time messenger core (server/routes.ts,
server/storage.ts, shared schema).  User/conversation/message ids are
opaque, so they are modelled as `Nat`; UUID generation becomes a fresh
counter `nextId`, and wall-clock time a logical counter `now`.  JS `Map`s
(which iterate in insertion order and update in place) are modelled as
association lists; `Array.from(map.values()).find(...)` is `List.find?`.
-/

namespace Messenger

/-- A user record (schema `users`); only the fields the core reads. -/
structure User where
  id : Nat
  displayName : String
  isOnline : Bool
  lastSeen : Nat
deriving Repr, DecidableEq

/-- A conversation record (schema `conversations`). -/
structure Conversation where
  id : Nat
  name : Option String
  isGroup : Bool
  participants : List Nat
  createdAt : Nat
  updatedAt : Nat
deriving Repr, DecidableEq

/-- JSON `metadata` payloads are modelled as objects: lists of key/value fields. -/
abbrev Meta : Type := List (String × String)

/-- A message record (schema `messages`).  `content` is `Option` because the
ws path passes `message.content` through unvalidated (it may be absent). -/
structure Message where
  id : Nat
  conversationId : Nat
  senderId : Nat
  content : Option String
  messageType : String
  metadata : Option Meta
  createdAt : Nat
deriving Repr, DecidableEq

/-- Insert payload for `storage.createMessage` (fields the callers pass). -/
structure InsertMessage where
  conversationId : Nat
  senderId : Nat
  content : Option String
  messageType : Option String
  metadata : Option Meta
deriving Repr, DecidableEq

/-- The MemStorage state: three JS Maps plus the id and clock counters. -/
structure Storage where
  users : List User
  conversations : List Conversation
  messages : List Message
  nextId : Nat
  now : Nat
deriving Repr, DecidableEq

/-- `storage.getUser(id)`. -/
def getUser (s : Storage) (id : Nat) : Option User :=
  s.users.find? (fun u => u.id = id)

/-- `storage.getConversation(id)`. -/
def getConversation (s : Storage) (id : Nat) : Option Conversation :=
  s.conversations.find? (fun c => c.id = id)

/-- `storage.getMessage(id)`. -/
def getMessage (s : Storage) (id : Nat) : Option Message :=
  s.messages.find? (fun m => m.id = id)

/-- JS `x || "text"`: absent or empty string falls back to the default. -/
def orText : Option String → String
  | none => "text"
  | some t => if t = "" then "text" else t

/-- `storage.setUserOnlineStatus(id, isOnline)`: if the user exists, set the
online flag and refresh lastSeen; `Map.set` on an existing key updates in
place, which on an association list is a `map`. -/
def setUserOnlineStatus (s : Storage) (id : Nat) (flag : Bool) : Storage :=
  { s with
    users := s.users.map (fun u =>
      if u.id = id then { u with isOnline := flag, lastSeen := s.now } else u)
    now := s.now + 1 }

/-- `storage.createConversation(insert)`: assigns a fresh id and timestamps. -/
def createConversation (s : Storage) (name : Option String) (isGroup : Bool)
    (participants : List Nat) : Conversation × Storage :=
  let conv : Conversation :=
    { id := s.nextId, name := name, isGroup := isGroup,
      participants := participants, createdAt := s.now, updatedAt := s.now }
  (conv, { s with conversations := s.conversations ++ [conv],
                  nextId := s.nextId + 1, now := s.now + 1 })

/-- `storage.createMessage(insert)`: assigns a fresh id and createdAt, stores
the message, then bumps the conversation's updatedAt when it exists. -/
def createMessage (s : Storage) (im : InsertMessage) : Message × Storage :=
  let msg : Message :=
    { id := s.nextId, conversationId := im.conversationId,
      senderId := im.senderId, content := im.content,
      messageType := orText im.messageType, metadata := im.metadata,
      createdAt := s.now }
  let convs := s.conversations.map (fun c =>
    if c.id = im.conversationId then { c with updatedAt := s.now } else c)
  (msg, { s with messages := s.messages ++ [msg], conversations := convs,
                 nextId := s.nextId + 1, now := s.now + 1 })

/-- The predicate of `findOrCreateDirectConversation`'s `find`: a non-group
conversation with exactly these two participants. -/
def isDirectFor (u1 u2 : Nat) (c : Conversation) : Bool :=
  !c.isGroup && c.participants.length = 2 &&
    c.participants.contains u1 && c.participants.contains u2

/-- `storage.findOrCreateDirectConversation(userId1, userId2)`. -/
def findOrCreateDirectConversation (s : Storage) (u1 u2 : Nat) :
    Conversation × Storage :=
  match s.conversations.find? (isDirectFor u1 u2) with
  | some existing => (existing, s)
  | none => createConversation s none false [u1, u2]

/-- Number of non-group conversations for the unordered pair in the store. -/
def directCount (s : Storage) (u1 u2 : Nat) : Nat :=
  (s.conversations.filter (isDirectFor u1 u2)).length

/-! ## The WebSocket gateway (routes.ts): clients map, frames, handlers -/

/-- A `WebSocketClient`: the transport connection object.  `userId` is the
property the auth case sets; `isOpen` stands for `readyState === OPEN`. -/
structure Conn where
  id : Nat
  userId : Option Nat
  isOpen : Bool
deriving Repr, DecidableEq

/-- The fan-out payload: persisted message plus `await getUser(senderId)`,
which may be `undefined` on the ws path. -/
structure OutMessage where
  msg : Message
  sender : Option User
deriving Repr, DecidableEq

/-- Outbound frame shapes (`type` discriminant of each `client.send`). -/
inductive Frame where
  | message (data : OutMessage)
  | typing (conversationId senderId : Nat) (isTyping : Bool)
  | userStatus (userId : Nat) (isOnline : Bool)
deriving Repr, DecidableEq

/-- One delivery: which connection a frame was pushed to. -/
structure Sent where
  connId : Nat
  frame : Frame
deriving Repr, DecidableEq

/-- The `clients` map: JS `Map<userId, WebSocketClient>` as an association
list in insertion order. -/
abbrev Clients : Type := List (Nat × Conn)

/-- JS `Map.get`. -/
def mapGet (m : Clients) (k : Nat) : Option Conn :=
  (m.find? (fun p => p.1 = k)).map Prod.snd

/-- JS `Map.set`: update in place when the key exists, else append. -/
def mapSet (m : Clients) (k : Nat) (v : Conn) : Clients :=
  if m.any (fun p => p.1 = k) then
    m.map (fun p => if p.1 = k then (k, v) else p)
  else m ++ [(k, v)]

/-- JS `Map.delete`. -/
def mapDelete (m : Clients) (k : Nat) : Clients :=
  m.filter (fun p => p.1 ≠ k)

/-- Whole gateway state: the store and the `clients` registry. -/
structure World where
  store : Storage
  clients : Clients
deriving Repr, DecidableEq

/-- `broadcastUserStatus(userId, isOnline)`: every entry of `clients` whose
key differs from `userId` and whose connection is OPEN gets a userStatus
frame. -/
def broadcastUserStatus (clients : Clients) (userId : Nat) (isOnline : Bool) :
    List Sent :=
  clients.filterMap (fun p =>
    if p.1 ≠ userId ∧ p.2.isOpen then
      some ⟨p.2.id, Frame.userStatus userId isOnline⟩
    else none)

/-- The ws `'auth'` case: bind `ws.userId`, `clients.set`, mark online in the
store, broadcast the online status. -/
def handleAuth (w : World) (c : Conn) (userId : Nat) : World × List Sent :=
  let c' := { c with userId := some userId }
  let clients' := mapSet w.clients userId c'
  let store' := setUserOnlineStatus w.store userId true
  (⟨store', clients'⟩, broadcastUserStatus clients' userId true)

/-- The delivery attempt `clients.get(pid)` + `readyState === OPEN` check
inside a fan-out loop. -/
def sendToParticipant (clients : Clients) (frame : Frame) (pid : Nat) :
    Option Sent :=
  match mapGet clients pid with
  | some c => if c.isOpen then some ⟨c.id, frame⟩ else none
  | none => none

/-- Inbound ws `'message'` frame fields. -/
structure InboundMessage where
  conversationId : Nat
  senderId : Nat
  content : Option String
  messageType : Option String
  metadata : Option Meta
deriving Repr, DecidableEq

/-- The object literal the ws `'message'` case passes to
`storage.createMessage`. -/
def wsInsert (im : InboundMessage) : InsertMessage :=
  { conversationId := im.conversationId, senderId := im.senderId,
    content := im.content, messageType := im.messageType,
    metadata := im.metadata }

/-- The ws `'message'` case: persist unconditionally (no existence,
membership or payload validation), resolve the sender, then fan the frame
out to every participant's registered open connection — when the
conversation exists at all. -/
def handleMessage (w : World) (im : InboundMessage) : World × List Sent :=
  let newMessage := (createMessage w.store (wsInsert im)).1
  let store' := (createMessage w.store (wsInsert im)).2
  let out : OutMessage := ⟨newMessage, getUser store' newMessage.senderId⟩
  let events := match getConversation store' im.conversationId with
    | some conversation =>
        conversation.participants.filterMap
          (sendToParticipant w.clients (Frame.message out))
    | none => []
  (⟨store', w.clients⟩, events)

/-- The ws `'typing'` case: if the conversation exists, relay to every
participant other than the sender; nothing is persisted. -/
def handleTyping (w : World) (conversationId senderId : Nat)
    (isTyping : Bool) : World × List Sent :=
  let events := match getConversation w.store conversationId with
    | some conv =>
        (conv.participants.filter (fun id => id ≠ senderId)).filterMap
          (sendToParticipant w.clients
            (Frame.typing conversationId senderId isTyping))
    | none => []
  (w, events)

/-- The `ws.on('close')` handler: if the connection was authenticated,
delete the user's registry entry, mark the user offline, broadcast. -/
def handleClose (w : World) (c : Conn) : World × List Sent :=
  match c.userId with
  | some userId =>
      let clients' := mapDelete w.clients userId
      let store' := setUserOnlineStatus w.store userId false
      (⟨store', clients'⟩, broadcastUserStatus clients' userId false)
  | none => (w, [])

/-! ## The HTTP message route (POST /api/conversations/:id/messages) -/

/-- HTTP-level outcomes of the route (status codes in routes.ts). -/
inductive PostErr where
  | notFound      -- 404 "Conversation not found"
  | forbidden     -- 403 "User not a participant in this conversation"
  | badRequest    -- 400: insertMessageSchema.parse threw
deriving Repr, DecidableEq

/-- Request body of the HTTP route (spread into the schema parse). -/
structure PostBody where
  content : Option String
  messageType : Option String
  metadata : Option Meta
deriving Repr, DecidableEq

/-- `insertMessageSchema.parse({...body, conversationId, senderId})`: the
drizzle-zod insert schema requires `content` (a NOT NULL text column) and
leaves `messageType` optional (it has a default) and `metadata` an
unconstrained optional jsonb — no shape check on location fields. -/
def insertMessageSchemaParse (body : PostBody) (conversationId senderId : Nat) :
    Option InsertMessage :=
  body.content.map (fun c =>
    { conversationId := conversationId, senderId := senderId,
      content := some c, messageType := body.messageType,
      metadata := body.metadata })

/-- The HTTP route: validate conversation exists (404), sender is a
participant (403), parse the insert schema (400), then persist and return
the message with its resolved sender.  This route emits no ws frames. -/
def postMessage (s : Storage) (conversationId userId : Nat) (body : PostBody) :
    Except PostErr (OutMessage × Storage) :=
  match getConversation s conversationId with
  | none => .error .notFound
  | some conversation =>
      if conversation.participants.contains userId then
        match insertMessageSchemaParse body conversationId userId with
        | none => .error .badRequest
        | some messageData =>
            let (newMessage, s') := createMessage s messageData
            .ok (⟨newMessage, getUser s' newMessage.senderId⟩, s')
      else .error .forbidden

/-! ## History read: MemStorage.getConversationMessages -/

/-- A history entry: message plus its (successfully resolved) sender, the
`MessageWithSender` type. -/
structure HistoryEntry where
  msg : Message
  sender : User
deriving Repr, DecidableEq

/-- Insert a message into a list already ascending on createdAt, after any
equal keys — the stable placement JS `Array.prototype.sort` gives the
ascending comparator. -/
def insertByCreated (m : Message) : List Message → List Message
  | [] => [m]
  | x :: xs =>
      if x.createdAt ≤ m.createdAt then x :: insertByCreated m xs
      else m :: x :: xs

/-- Stable ascending sort on createdAt (the `.sort((a, b) => aTime - bTime)`
step). -/
def sortByCreated (l : List Message) : List Message :=
  l.foldl (fun acc m => insertByCreated m acc) []

/-- JS `arr.slice(-limit)`: the last `limit` elements, except that
`slice(-0)` is `slice(0)` and returns the whole array. -/
def sliceLast (l : List Message) (limit : Nat) : List Message :=
  if limit = 0 then l else l.drop (l.length - limit)

/-- `storage.getConversationMessages(conversationId, limit)`: filter the
conversation's messages, sort ascending by createdAt, keep the last
`limit`, and resolve each sender — dropping messages whose sender no
longer resolves. -/
def getConversationMessages (s : Storage) (conversationId : Nat)
    (limit : Nat) : List HistoryEntry :=
  let sorted := sortByCreated
    (s.messages.filter (fun m => m.conversationId = conversationId))
  (sliceLast sorted limit).filterMap (fun m =>
    (getUser s m.senderId).map (fun sender => ⟨m, sender⟩))

/-- The route-level call `storage.getConversationMessages(conversationId)`
uses the default `limit = 50`. -/
def getConversationMessagesDefault (s : Storage) (conversationId : Nat) :
    List HistoryEntry :=
  getConversationMessages s conversationId 50

/-- Every message id in the store is below the fresh-id counter (holds for
every store built by the operations; used where freshness matters). -/
def messagesWF (s : Storage) : Bool :=
  s.messages.all (fun m => m.id < s.nextId)

/-! ## Helper lemmas on the registry map -/

theorem mapGet_mapSet_self (m : Clients) (k : Nat) (v : Conn) :
    mapGet (mapSet m k v) k = some v := by
  by_cases h : m.any (fun p => p.1 = k) = true
  · rw [mapSet, if_pos h]
    induction m with
    | nil => simp at h
    | cons hd tl ih =>
        by_cases hk : hd.1 = k
        · simp [mapGet, hk]
        · have htl : tl.any (fun p => p.1 = k) = true := by
            simp only [List.any_cons, Bool.or_eq_true] at h
            rcases h with h | h
            · exact absurd (of_decide_eq_true h) hk
            · exact h
          simpa [mapGet, hk] using ih htl
  · rw [mapSet, if_neg h]
    have hnone : m.find? (fun p => p.1 = k) = none := by
      refine List.find?_eq_none.mpr ?_
      intro x hx hpx
      exact h (List.any_eq_true.mpr ⟨x, hx, hpx⟩)
    simp [mapGet, List.find?_append, hnone]

theorem mapGet_mapDelete_self (m : Clients) (k : Nat) :
    mapGet (mapDelete m k) k = none := by
  unfold mapGet mapDelete
  have : (m.filter (fun p => p.1 ≠ k)).find? (fun p => p.1 = k) = none := by
    refine List.find?_eq_none.mpr ?_
    intro x hx
    have := (List.mem_filter.mp hx).2
    simp at this
    simp [this]
  simp [this]

theorem mapGet_mem {m : Clients} {k : Nat} {c : Conn}
    (h : mapGet m k = some c) : (k, c) ∈ m := by
  unfold mapGet at h
  rcases Option.map_eq_some'.mp h with ⟨p, hp, hpc⟩
  have hk : p.1 = k := by simpa using List.find?_some hp
  have hmem := List.mem_of_find?_eq_some hp
  have : p = (k, c) := by
    cases p
    simp_all
  rwa [this] at hmem

/-! ## Helper lemmas on the store operations -/

theorem getUser_setUserOnlineStatus (s : Storage) (id : Nat) (flag : Bool) :
    getUser (setUserOnlineStatus s id flag) id =
      (getUser s id).map
        (fun u => { u with isOnline := flag, lastSeen := s.now }) := by
  unfold getUser setUserOnlineStatus
  simp only [List.find?_map]
  have hco : ((fun u : User => decide (u.id = id)) ∘
      (fun u : User =>
        if u.id = id then { u with isOnline := flag, lastSeen := s.now }
        else u)) = (fun u : User => decide (u.id = id)) := by
    funext u
    by_cases h : u.id = id <;> simp [h]
  rw [hco]
  cases hf : s.users.find? (fun u => decide (u.id = id)) with
  | none => simp
  | some u =>
      have hu : u.id = id := by simpa using List.find?_some hf
      simp [hu]

theorem getConversation_createMessage (s : Storage) (im : InsertMessage)
    (cid : Nat) :
    getConversation (createMessage s im).2 cid =
      (getConversation s cid).map
        (fun c => if c.id = im.conversationId
                  then { c with updatedAt := s.now } else c) := by
  unfold getConversation createMessage
  simp only [List.find?_map]
  have hco : ((fun c : Conversation => decide (c.id = cid)) ∘
      (fun c : Conversation =>
        if c.id = im.conversationId then { c with updatedAt := s.now }
        else c)) = (fun c : Conversation => decide (c.id = cid)) := by
    funext c
    by_cases h : c.id = im.conversationId <;> simp [h]
  rw [hco]

theorem createMessage_messages (s : Storage) (im : InsertMessage) :
    (createMessage s im).2.messages =
      s.messages ++ [(createMessage s im).1] := by
  rfl

/-- Characterization of one delivery attempt inside a fan-out loop. -/
theorem sendToParticipant_eq_some {clients : Clients} {frame : Frame}
    {pid : Nat} {e : Sent} :
    sendToParticipant clients frame pid = some e ↔
      ∃ c, mapGet clients pid = some c ∧ c.isOpen = true ∧
        e = ⟨c.id, frame⟩ := by
  unfold sendToParticipant
  cases h : mapGet clients pid with
  | none => simp
  | some c =>
      by_cases hc : c.isOpen = true
      · dsimp only
        rw [if_pos hc]
        constructor
        · intro he
          exact ⟨c, rfl, hc, (Option.some.inj he).symm⟩
        · rintro ⟨c', hcc, _, he⟩
          cases Option.some.inj hcc
          rw [he]
      · simp [hc]

/-- Membership in a fan-out loop over a participant list. -/
theorem mem_fanout {clients : Clients} {frame : Frame} {ps : List Nat}
    {e : Sent} :
    e ∈ ps.filterMap (sendToParticipant clients frame) ↔
      ∃ p ∈ ps, ∃ c, mapGet clients p = some c ∧ c.isOpen = true ∧
        e = ⟨c.id, frame⟩ := by
  rw [List.mem_filterMap]
  simp only [sendToParticipant_eq_some]

/-- When registered connections have distinct ids and the participant list
has no duplicates, a fan-out pushes to each connection at most once. -/
theorem fanout_connIds_nodup {clients : Clients} {frame : Frame}
    {ps : List Nat} (hids : (clients.map (fun p => p.2.id)).Nodup)
    (hps : ps.Nodup) :
    ((ps.filterMap (sendToParticipant clients frame)).map Sent.connId).Nodup := by
  rw [List.map_filterMap]
  refine List.Nodup.filterMap ?_ hps
  intro a a' b hb hb'
  rcases Option.map_eq_some'.mp hb with ⟨e, he, hbe⟩
  rcases Option.map_eq_some'.mp hb' with ⟨e', he', hbe'⟩
  rcases sendToParticipant_eq_some.mp he with ⟨c, hg, _, rfl⟩
  rcases sendToParticipant_eq_some.mp he' with ⟨c', hg', _, rfl⟩
  have hid : c.id = c'.id := by
    rw [← hbe'] at hbe
    exact hbe
  have h1 := mapGet_mem hg
  have h2 := mapGet_mem hg'
  have := List.inj_on_of_nodup_map hids h1 h2 (by simpa using hid)
  exact congrArg Prod.fst this

/-! ## Helper lemmas on the history sort -/

theorem length_insertByCreated (m : Message) (l : List Message) :
    (insertByCreated m l).length = l.length + 1 := by
  induction l with
  | nil => rfl
  | cons x xs ih =>
      rw [insertByCreated]
      split <;> simp [ih]

theorem mem_insertByCreated {a m : Message} {l : List Message} :
    a ∈ insertByCreated m l ↔ a = m ∨ a ∈ l := by
  induction l with
  | nil => simp [insertByCreated]
  | cons x xs ih =>
      rw [insertByCreated]
      split
      · simp only [List.mem_cons, ih]
        tauto
      · simp only [List.mem_cons]

theorem pairwise_insertByCreated {m : Message} {l : List Message}
    (h : l.Pairwise (fun a b => a.createdAt ≤ b.createdAt)) :
    (insertByCreated m l).Pairwise (fun a b => a.createdAt ≤ b.createdAt) := by
  induction l with
  | nil => simp [insertByCreated]
  | cons x xs ih =>
      rcases List.pairwise_cons.mp h with ⟨hx, hxs⟩
      rw [insertByCreated]
      by_cases hle : x.createdAt ≤ m.createdAt
      · rw [if_pos hle]
        refine List.pairwise_cons.mpr ⟨?_, ih hxs⟩
        intro b hb
        rcases mem_insertByCreated.mp hb with rfl | hbmem
        · exact hle
        · exact hx b hbmem
      · rw [if_neg hle]
        refine List.pairwise_cons.mpr ⟨?_, h⟩
        intro b hb
        rcases List.mem_cons.mp hb with rfl | hbmem
        · omega
        · exact le_trans (by omega) (hx b hbmem)

theorem pairwise_sortByCreated_go (l acc : List Message)
    (hacc : acc.Pairwise (fun a b => a.createdAt ≤ b.createdAt)) :
    (l.foldl (fun acc m => insertByCreated m acc) acc).Pairwise
      (fun a b => a.createdAt ≤ b.createdAt) := by
  induction l generalizing acc with
  | nil => exact hacc
  | cons x xs ih => exact ih _ (pairwise_insertByCreated hacc)

theorem pairwise_sortByCreated (l : List Message) :
    (sortByCreated l).Pairwise (fun a b => a.createdAt ≤ b.createdAt) :=
  pairwise_sortByCreated_go l [] (by simp)

theorem mem_sortByCreated_go {a : Message} (l acc : List Message) :
    a ∈ l.foldl (fun acc m => insertByCreated m acc) acc ↔
      a ∈ acc ∨ a ∈ l := by
  induction l generalizing acc with
  | nil => simp
  | cons x xs ih =>
      rw [List.foldl_cons, ih]
      simp only [mem_insertByCreated, List.mem_cons]
      tauto

theorem mem_sortByCreated {a : Message} {l : List Message} :
    a ∈ sortByCreated l ↔ a ∈ l := by
  unfold sortByCreated
  rw [mem_sortByCreated_go]
  simp

theorem sliceLast_sublist (l : List Message) (limit : Nat) :
    (sliceLast l limit).Sublist l := by
  unfold sliceLast
  split
  · exact List.Sublist.refl l
  · exact List.drop_sublist _ l

theorem length_sliceLast_le (l : List Message) (limit : Nat)
    (h : limit ≠ 0) : (sliceLast l limit).length ≤ limit := by
  unfold sliceLast
  rw [if_neg h, List.length_drop]
  omega

/-! ## Structural lemmas on the ws message handler -/

theorem handleMessage_store (w : World) (im : InboundMessage) :
    (handleMessage w im).1.store = (createMessage w.store (wsInsert im)).2 :=
  rfl

theorem handleMessage_clients (w : World) (im : InboundMessage) :
    (handleMessage w im).1.clients = w.clients :=
  rfl

theorem handleMessage_events (w : World) (im : InboundMessage)
    {conv : Conversation}
    (h : getConversation w.store im.conversationId = some conv) :
    (handleMessage w im).2 =
      conv.participants.filterMap
        (sendToParticipant w.clients (Frame.message
          ⟨(createMessage w.store (wsInsert im)).1,
           getUser (createMessage w.store (wsInsert im)).2 im.senderId⟩)) := by
  have hid : conv.id = im.conversationId := by
    simpa using List.find?_some h
  unfold handleMessage
  dsimp only
  rw [getConversation_createMessage, h]
  simp [hid, wsInsert, createMessage]

theorem handleMessage_events_none (w : World) (im : InboundMessage)
    (h : getConversation w.store im.conversationId = none) :
    (handleMessage w im).2 = [] := by
  unfold handleMessage
  dsimp only
  rw [getConversation_createMessage, h]
  simp

/-! ## Concrete fixtures used by counterexamples and witnesses -/

/-- A group conversation among users 1, 2, 3 (user 4 is not a member). -/
def exConv : Conversation := ⟨10, none, true, [1, 2, 3], 0, 0⟩

def exStore : Storage :=
  ⟨[⟨1, "A", false, 0⟩, ⟨2, "B", false, 0⟩, ⟨3, "C", false, 0⟩,
    ⟨4, "D", false, 0⟩, ⟨7, "G", true, 0⟩], [exConv], [], 20, 5⟩

def exClients : Clients :=
  [(1, ⟨101, some 1, true⟩), (2, ⟨102, some 2, true⟩),
   (3, ⟨103, some 3, true⟩), (4, ⟨104, some 4, true⟩)]

def exWorld : World := ⟨exStore, exClients⟩

/-- A world in which user 7 additionally holds a registered live
connection (id 202). -/
def exWorld2 : World := ⟨exStore, exClients ++ [(7, ⟨202, some 7, true⟩)]⟩

/-- A second, still-open connection of user 7 (id 201), displaced from the
registry by connection 202. -/
def exStaleConn : Conn := ⟨201, some 7, true⟩

def exConnA : Conn := ⟨201, none, true⟩

def exConnB : Conn := ⟨202, none, true⟩

/-- Location metadata carrying only an address — no latitude, no longitude. -/
def locMeta : Meta := [("address", "x")]

def locBody : PostBody := ⟨some "loc", some "location", some locMeta⟩

def locIm : InboundMessage := ⟨10, 1, some "loc", some "location", some locMeta⟩

def imC1 : InboundMessage := ⟨10, 4, some "hi", none, none⟩

/-- Whether a route outcome is a success. -/
def postOk : Except PostErr (OutMessage × Storage) → Bool
  | .ok _ => true
  | .error _ => false

/-! ## Claims -/

/-- Claim C1, counterexample: in `exWorld`, user 4 is not a participant of
conversation 10, yet the ws message handler does not fail — it broadcasts
the message event to the three participants' live connections (three
broadcast events, not zero). -/
theorem C1_counterexample :
    getConversation exWorld.store 10 = some exConv ∧
    exConv.participants.contains 4 = false ∧
    (handleMessage exWorld ⟨10, 4, some "intruder", none, none⟩).2.length = 3 := by
  decide

/-- Claim C1 as amended: only the HTTP route enforces membership — a send
by a non-participant fails there with Forbidden (the error goes only to
the requester and nothing is persisted or broadcast, since the route
returns before any Store write and emits no ws frames); the ws path
performs no membership check: the fan-out delivers the persisted message
to every participant's registered open connection regardless of whether
the sender belongs to the conversation. -/
theorem C1_amended :
    (∀ (s : Storage) (cid uid : Nat) (body : PostBody) (conv : Conversation),
      getConversation s cid = some conv →
      conv.participants.contains uid = false →
      postMessage s cid uid body = .error .forbidden) ∧
    (∀ (w : World) (im : InboundMessage) (conv : Conversation),
      getConversation w.store im.conversationId = some conv →
      ∀ p ∈ conv.participants, ∀ c, mapGet w.clients p = some c →
        c.isOpen = true →
        Sent.mk c.id (Frame.message
          ⟨(createMessage w.store (wsInsert im)).1,
           getUser (createMessage w.store (wsInsert im)).2 im.senderId⟩) ∈
          (handleMessage w im).2) := by
  constructor
  · intro s cid uid body conv h hmem
    unfold postMessage
    rw [h]
    have hmem' : uid ∉ conv.participants := by simpa using hmem
    simp [hmem']
  · intro w im conv h p hp c hc hopen
    rw [handleMessage_events w im h]
    exact mem_fanout.mpr ⟨p, hp, c, hc, hopen, rfl⟩

/-- Claim C1, witness: the amended theorem applied in `exWorld` — the HTTP
route rejects non-participant 4 with Forbidden, while the ws fan-out still
reaches participant 2's connection 102. -/
theorem C1_witness :
    getConversation exStore 10 = some exConv ∧
    exConv.participants.contains 4 = false ∧
    postMessage exStore 10 4 ⟨some "hi", none, none⟩ = .error .forbidden ∧
    Sent.mk 102 (Frame.message
      ⟨(createMessage exWorld.store (wsInsert imC1)).1,
       getUser (createMessage exWorld.store (wsInsert imC1)).2 imC1.senderId⟩) ∈
      (handleMessage exWorld imC1).2 :=
  ⟨by decide, by decide,
   C1_amended.1 exStore 10 4 ⟨some "hi", none, none⟩ exConv (by decide) (by decide),
   C1_amended.2 exWorld imC1 exConv (by decide) 2 (by decide)
     ⟨102, some 2, true⟩ (by decide) rfl⟩

/-- Claim C2, counterexample: conversation 99 does not exist, yet the ws
message handler performs a Store write — the message collection grows by
one message. -/
theorem C2_counterexample :
    getConversation exWorld.store 99 = none ∧
    (handleMessage exWorld ⟨99, 1, some "ghost", none, none⟩).1.store.messages.length =
      exWorld.store.messages.length + 1 := by
  decide

/-- Claim C2 as amended: only the HTTP route validates existence before
persisting — there a send to a missing conversation fails with NotFound
and no Store write occurs; the ws path persists the message into the Store
unconditionally, before (and without) checking that the conversation
exists, though no broadcast then happens for a missing conversation. -/
theorem C2_amended :
    (∀ (s : Storage) (cid uid : Nat) (body : PostBody),
      getConversation s cid = none →
      postMessage s cid uid body = .error .notFound) ∧
    (∀ (w : World) (im : InboundMessage),
      (handleMessage w im).1.store.messages =
        w.store.messages ++ [(createMessage w.store (wsInsert im)).1]) ∧
    (∀ (w : World) (im : InboundMessage),
      getConversation w.store im.conversationId = none →
      (handleMessage w im).2 = []) := by
  refine ⟨?_, ?_, ?_⟩
  · intro s cid uid body h
    unfold postMessage
    rw [h]
  · intro w im
    rw [handleMessage_store]
    exact createMessage_messages _ _
  · intro w im h
    exact handleMessage_events_none w im h

/-- Claim C2, witness: the amended theorem at conversation 99, absent from
`exStore`. -/
theorem C2_witness :
    getConversation exStore 99 = none ∧
    postMessage exStore 99 1 ⟨some "hi", none, none⟩ = .error .notFound ∧
    (handleMessage exWorld ⟨99, 1, some "g", none, none⟩).1.store.messages =
      exWorld.store.messages ++
        [(createMessage exWorld.store (wsInsert ⟨99, 1, some "g", none, none⟩)).1] ∧
    (handleMessage exWorld ⟨99, 1, some "g", none, none⟩).2 = [] :=
  ⟨by decide,
   C2_amended.1 exStore 99 1 ⟨some "hi", none, none⟩ (by decide),
   C2_amended.2.1 exWorld ⟨99, 1, some "g", none, none⟩,
   C2_amended.2.2 exWorld ⟨99, 1, some "g", none, none⟩ (by decide)⟩

/-- Claim C3, counterexample: after user 7 registers connection 201 and
then connection 202, the registry maps user 7 to connection 202 only —
connection 201 is gone from the registry entirely, so a fan-out cannot
reach it. -/
theorem C3_counterexample :
    mapGet (handleAuth (handleAuth exWorld exConnA 7).1 exConnB 7).1.clients 7 =
      some ⟨202, some 7, true⟩ ∧
    ((handleAuth (handleAuth exWorld exConnA 7).1 exConnB 7).1.clients.map
      (fun p => p.2.id)).contains 201 = false := by
  decide

/-- Claim C3 as amended: the clients registry is keyed by userId with one
connection per key, so registering a second connection for the same user
replaces the first — after both register calls the registry returns
exactly the second connection for that user, and a fan-out to the user
reaches at most that most recent connection. -/
theorem C3_amended (w : World) (c1 c2 : Conn) (uid : Nat) :
    mapGet (handleAuth (handleAuth w c1 uid).1 c2 uid).1.clients uid =
      some { c2 with userId := some uid } :=
  mapGet_mapSet_self _ uid _

/-- Claim C4, counterexample: user 7 holds two live connections (201,
displaced from the registry, and 202, registered and open); closing
connection 201 nevertheless marks user 7 offline in the store and emits
offline userStatus broadcasts — and deletes user 7's registry entry. -/
theorem C4_counterexample :
    exStaleConn.userId = some 7 ∧ exStaleConn.isOpen = true ∧
    mapGet exWorld2.clients 7 = some ⟨202, some 7, true⟩ ∧
    (getUser (handleClose exWorld2 exStaleConn).1.store 7).map User.isOnline =
      some false ∧
    (handleClose exWorld2 exStaleConn).2 ≠ [] ∧
    ((handleClose exWorld2 exStaleConn).2.map Sent.frame).contains
      (Frame.userStatus 7 false) = true := by
  decide

/-- Claim C4 as amended: the close handler is unconditional — whenever an
authenticated connection closes, the user's (single) registry entry is
deleted, the user is marked offline with refreshed lastSeen, and an
offline userStatus is broadcast to the remaining registered open
connections, regardless of how many other live connections the user still
has; there is no 1→0 transition check. -/
theorem C4_amended (w : World) (c : Conn) (u : Nat) (h : c.userId = some u) :
    mapGet (handleClose w c).1.clients u = none ∧
    getUser (handleClose w c).1.store u =
      (getUser w.store u).map
        (fun x => { x with isOnline := false, lastSeen := w.store.now }) ∧
    (handleClose w c).2 = broadcastUserStatus (mapDelete w.clients u) u false := by
  unfold handleClose
  rw [h]
  exact ⟨mapGet_mapDelete_self _ _, getUser_setUserOnlineStatus _ _ _, rfl⟩

/-- Claim C4, witness: the amended theorem applied to the close of
connection 201 (authenticated as user 7) in `exWorld2`. -/
theorem C4_witness :
    exStaleConn.userId = some 7 ∧
    (mapGet (handleClose exWorld2 exStaleConn).1.clients 7 = none ∧
     getUser (handleClose exWorld2 exStaleConn).1.store 7 =
       (getUser exWorld2.store 7).map
         (fun x => { x with isOnline := false, lastSeen := exWorld2.store.now }) ∧
     (handleClose exWorld2 exStaleConn).2 =
       broadcastUserStatus (mapDelete exWorld2.clients 7) 7 false) :=
  ⟨rfl, C4_amended exWorld2 exStaleConn 7 rfl⟩

/-- Claim C5, counterexample: a type=location send whose metadata has no
latitude (only an address) is not rejected: the HTTP route succeeds and
the ws path persists the message (the Store's message collection grows). -/
theorem C5_counterexample :
    locMeta.find? (fun kv => kv.1 = "latitude") = none ∧
    postOk (postMessage exStore 10 1 locBody) = true ∧
    (handleMessage exWorld locIm).1.store.messages.length =
      exWorld.store.messages.length + 1 := by
  decide

/-- Claim C5 as amended: no payload-shape validation exists for location
messages — for any metadata object whatsoever (latitude present or not),
a type=location send through the HTTP route succeeds whenever the
conversation exists, the sender is a participant and content is present,
and the message is persisted with that metadata unchanged; the ws path
(shown by the counterexample) persists such a message without even those
checks. -/
theorem C5_amended (s : Storage) (cid uid : Nat) (content : String)
    (md : Meta) (conv : Conversation)
    (h : getConversation s cid = some conv)
    (hmem : conv.participants.contains uid = true) :
    ∃ out s',
      postMessage s cid uid ⟨some content, some "location", some md⟩ =
        .ok (out, s') ∧
      out.msg.metadata = some md ∧
      out.msg.messageType = "location" ∧
      s'.messages = s.messages ++ [out.msg] := by
  refine ⟨⟨(createMessage s ⟨cid, uid, some content, some "location", some md⟩).1,
          getUser (createMessage s ⟨cid, uid, some content, some "location", some md⟩).2 uid⟩,
         (createMessage s ⟨cid, uid, some content, some "location", some md⟩).2,
         ?_, rfl, rfl, ?_⟩
  · unfold postMessage
    rw [h]
    have hmem' : uid ∈ conv.participants := by simpa using hmem
    simp [hmem', insertMessageSchemaParse, createMessage]
  · exact createMessage_messages _ _

/-- Claim C5, witness: the amended theorem applied to a location send with
address-only metadata in `exStore`. -/
theorem C5_witness :
    getConversation exStore 10 = some exConv ∧
    exConv.participants.contains 1 = true ∧
    (∃ out s',
      postMessage exStore 10 1 ⟨some "loc", some "location", some locMeta⟩ =
        .ok (out, s') ∧
      out.msg.metadata = some locMeta ∧
      out.msg.messageType = "location" ∧
      s'.messages = exStore.messages ++ [out.msg]) :=
  ⟨by decide, by decide,
   C5_amended exStore 10 1 "loc" locMeta exConv (by decide) (by decide)⟩

/-- Events of the ws `'typing'` case when the conversation exists. -/
theorem handleTyping_events (w : World) (cid sid : Nat) (t : Bool)
    {conv : Conversation} (h : getConversation w.store cid = some conv) :
    (handleTyping w cid sid t).2 =
      (conv.participants.filter (fun id => id ≠ sid)).filterMap
        (sendToParticipant w.clients (Frame.typing cid sid t)) := by
  unfold handleTyping
  dsimp only
  rw [h]

def imC6 : InboundMessage := ⟨10, 1, some "hello", none, none⟩

def imC7 : InboundMessage := ⟨10, 2, some "yo", none, none⟩

/-- Claim C6: a successful ws send to an existing conversation is pushed,
as a message event carrying the persisted message and the resolved sender
profile, to exactly the registered open connections of the conversation's
participants — each such connection exactly once, the sender's own
connection included when the sender is a participant, and no other
connection ever. -/
theorem C6_fanout (w : World) (im : InboundMessage) (conv : Conversation)
    (h : getConversation w.store im.conversationId = some conv)
    (hids : (w.clients.map (fun p => p.2.id)).Nodup)
    (hps : conv.participants.Nodup) :
    ∃ out : OutMessage,
      out.msg = (createMessage w.store (wsInsert im)).1 ∧
      out.sender = getUser (handleMessage w im).1.store im.senderId ∧
      (∀ e, e ∈ (handleMessage w im).2 ↔
        ∃ p ∈ conv.participants, ∃ c, mapGet w.clients p = some c ∧
          c.isOpen = true ∧ e = ⟨c.id, Frame.message out⟩) ∧
      ((handleMessage w im).2.map Sent.connId).Nodup ∧
      (im.senderId ∈ conv.participants →
        ∀ c, mapGet w.clients im.senderId = some c → c.isOpen = true →
          Sent.mk c.id (Frame.message out) ∈ (handleMessage w im).2) := by
  refine ⟨⟨(createMessage w.store (wsInsert im)).1,
          getUser (createMessage w.store (wsInsert im)).2 im.senderId⟩,
         rfl, rfl, ?_, ?_, ?_⟩
  · intro e
    rw [handleMessage_events w im h]
    exact mem_fanout
  · rw [handleMessage_events w im h]
    exact fanout_connIds_nodup hids hps
  · intro hs c hc hopen
    rw [handleMessage_events w im h]
    exact mem_fanout.mpr ⟨im.senderId, hs, c, hc, hopen, rfl⟩

/-- Claim C6, witness: the fan-out theorem applied to user 1's send in
conversation 10 of `exWorld` (participants 1, 2, 3 connected, user 4
connected but not a participant). -/
theorem C6_witness :
    getConversation exWorld.store 10 = some exConv ∧
    (exWorld.clients.map (fun p => p.2.id)).Nodup ∧
    exConv.participants.Nodup ∧
    (∃ out : OutMessage,
      out.msg = (createMessage exWorld.store (wsInsert imC6)).1 ∧
      out.sender = getUser (handleMessage exWorld imC6).1.store imC6.senderId ∧
      (∀ e, e ∈ (handleMessage exWorld imC6).2 ↔
        ∃ p ∈ exConv.participants, ∃ c, mapGet exWorld.clients p = some c ∧
          c.isOpen = true ∧ e = ⟨c.id, Frame.message out⟩) ∧
      ((handleMessage exWorld imC6).2.map Sent.connId).Nodup ∧
      (imC6.senderId ∈ exConv.participants →
        ∀ c, mapGet exWorld.clients imC6.senderId = some c → c.isOpen = true →
          Sent.mk c.id (Frame.message out) ∈ (handleMessage exWorld imC6).2)) :=
  ⟨by decide, by decide, by decide,
   C6_fanout exWorld imC6 exConv (by decide) (by decide) (by decide)⟩

/-- Claim C7: the Store persist completes before any delivery — the ws
handler appends the message (assigned the fresh id and the current
timestamp, bumping the conversation's updatedAt) to the Store, and every
event it emits carries exactly that persisted message, which is present in
the post-handler Store and (under id-freshness) retrievable by its id. -/
theorem C7_persisted_before_broadcast (w : World) (im : InboundMessage) :
    (handleMessage w im).1.store.messages =
      w.store.messages ++ [(createMessage w.store (wsInsert im)).1] ∧
    (createMessage w.store (wsInsert im)).1.createdAt = w.store.now ∧
    (createMessage w.store (wsInsert im)).1.id = w.store.nextId ∧
    (∀ e ∈ (handleMessage w im).2,
      e.frame = Frame.message
        ⟨(createMessage w.store (wsInsert im)).1,
         getUser (handleMessage w im).1.store im.senderId⟩ ∧
      (createMessage w.store (wsInsert im)).1 ∈
        (handleMessage w im).1.store.messages) ∧
    (messagesWF w.store = true →
      getMessage (handleMessage w im).1.store
        (createMessage w.store (wsInsert im)).1.id =
        some ((createMessage w.store (wsInsert im)).1)) ∧
    (∀ conv, getConversation w.store im.conversationId = some conv →
      getConversation (handleMessage w im).1.store im.conversationId =
        some { conv with updatedAt := w.store.now }) := by
  refine ⟨by rw [handleMessage_store]; exact createMessage_messages _ _,
         rfl, rfl, ?_, ?_, ?_⟩
  · intro e he
    have hmemM : (createMessage w.store (wsInsert im)).1 ∈
        (handleMessage w im).1.store.messages := by
      rw [handleMessage_store, createMessage_messages]
      simp
    cases hconv : getConversation w.store im.conversationId with
    | none =>
        rw [handleMessage_events_none w im hconv] at he
        cases he
    | some conv =>
        rw [handleMessage_events w im hconv] at he
        rcases mem_fanout.mp he with ⟨p, _, c, _, _, rfl⟩
        exact ⟨rfl, hmemM⟩
  · intro hwf
    rw [handleMessage_store]
    unfold getMessage
    rw [createMessage_messages, List.find?_append]
    have hnone : w.store.messages.find?
        (fun m => m.id = (createMessage w.store (wsInsert im)).1.id) = none := by
      refine List.find?_eq_none.mpr ?_
      intro m hm
      have hlt : m.id < w.store.nextId := by
        have := List.all_eq_true.mp hwf m hm
        simpa using this
      have hfresh : (createMessage w.store (wsInsert im)).1.id =
          w.store.nextId := rfl
      simp only [decide_eq_true_eq, hfresh]
      omega
    rw [hnone]
    simp
  · intro conv hconv
    have hid : conv.id = im.conversationId := by
      simpa using List.find?_some hconv
    rw [handleMessage_store, getConversation_createMessage, hconv]
    simp [hid, wsInsert]

/-- Claim C7, witness: the theorem applied to user 2's send in `exWorld`,
with the freshness hypothesis checked on `exStore` and the conversation
hypothesis at conversation 10. -/
theorem C7_witness :
    messagesWF exWorld.store = true ∧
    Sent.mk 101 (Frame.message
      ⟨(createMessage exWorld.store (wsInsert imC7)).1,
       getUser (handleMessage exWorld imC7).1.store imC7.senderId⟩) ∈
      (handleMessage exWorld imC7).2 ∧
    ((createMessage exWorld.store (wsInsert imC7)).1.createdAt =
      exWorld.store.now ∧
     (messagesWF exWorld.store = true →
       getMessage (handleMessage exWorld imC7).1.store
         (createMessage exWorld.store (wsInsert imC7)).1.id =
         some ((createMessage exWorld.store (wsInsert imC7)).1))) :=
  ⟨by decide, by decide,
   (C7_persisted_before_broadcast exWorld imC7).2.1,
   (C7_persisted_before_broadcast exWorld imC7).2.2.2.2.1⟩

/-- Claim C8: a typing event on an existing conversation changes no state
(no persistence) and is relayed to exactly the registered open connections
of every participant other than the sender. -/
theorem C8_typing (w : World) (cid sid : Nat) (t : Bool) (conv : Conversation)
    (h : getConversation w.store cid = some conv) :
    (handleTyping w cid sid t).1 = w ∧
    (∀ e, e ∈ (handleTyping w cid sid t).2 ↔
      ∃ p ∈ conv.participants, p ≠ sid ∧ ∃ c, mapGet w.clients p = some c ∧
        c.isOpen = true ∧ e = ⟨c.id, Frame.typing cid sid t⟩) := by
  refine ⟨rfl, ?_⟩
  intro e
  rw [handleTyping_events w cid sid t h, mem_fanout]
  constructor
  · rintro ⟨p, hpf, c, hc, hop, rfl⟩
    rcases List.mem_filter.mp hpf with ⟨hp, hd⟩
    exact ⟨p, hp, by simpa using hd, c, hc, hop, rfl⟩
  · rintro ⟨p, hp, hne, c, hc, hop, rfl⟩
    exact ⟨p, List.mem_filter.mpr ⟨hp, by simpa using hne⟩, c, hc, hop, rfl⟩

/-- Claim C8, witness: the typing theorem applied to user 1 typing in
conversation 10 of `exWorld`: the world is unchanged and users 2 and 3
(not sender 1, not non-participant 4) are the recipients. -/
theorem C8_witness :
    getConversation exWorld.store 10 = some exConv ∧
    ((handleTyping exWorld 10 1 true).1 = exWorld ∧
     (∀ e, e ∈ (handleTyping exWorld 10 1 true).2 ↔
       ∃ p ∈ exConv.participants, p ≠ 1 ∧ ∃ c, mapGet exWorld.clients p = some c ∧
         c.isOpen = true ∧ e = ⟨c.id, Frame.typing 10 1 true⟩)) :=
  ⟨by decide, C8_typing exWorld 10 1 true exConv (by decide)⟩

/-! ## Find-or-create lemmas (C9) -/

theorem isDirectFor_swap (u1 u2 : Nat) :
    isDirectFor u2 u1 = isDirectFor u1 u2 := by
  funext c
  unfold isDirectFor
  cases c.participants.contains u1 <;> cases c.participants.contains u2 <;> simp

theorem findOrCreate_of_find_some (s : Storage) (u1 u2 : Nat)
    (c : Conversation)
    (h : s.conversations.find? (isDirectFor u1 u2) = some c) :
    findOrCreateDirectConversation s u1 u2 = (c, s) := by
  unfold findOrCreateDirectConversation
  rw [h]

theorem findOrCreate_of_find_none (s : Storage) (u1 u2 : Nat)
    (h : s.conversations.find? (isDirectFor u1 u2) = none) :
    findOrCreateDirectConversation s u1 u2 =
      createConversation s none false [u1, u2] := by
  unfold findOrCreateDirectConversation
  rw [h]

theorem findOrCreate_twice (s : Storage) (u1 u2 v1 v2 : Nat)
    (hsym : isDirectFor v1 v2 = isDirectFor u1 u2) :
    ((findOrCreateDirectConversation
        (findOrCreateDirectConversation s u1 u2).2 v1 v2).1).id =
      ((findOrCreateDirectConversation s u1 u2).1).id ∧
    (findOrCreateDirectConversation
        (findOrCreateDirectConversation s u1 u2).2 v1 v2).2.conversations.length =
      (findOrCreateDirectConversation s u1 u2).2.conversations.length ∧
    directCount (findOrCreateDirectConversation
        (findOrCreateDirectConversation s u1 u2).2 v1 v2).2 u1 u2 =
      max (directCount s u1 u2) 1 := by
  cases hfind : s.conversations.find? (isDirectFor u1 u2) with
  | some c =>
      rw [findOrCreate_of_find_some s u1 u2 c hfind]
      rw [findOrCreate_of_find_some s v1 v2 c (by rw [hsym]; exact hfind)]
      refine ⟨rfl, rfl, ?_⟩
      have hmem : c ∈ s.conversations.filter (isDirectFor u1 u2) :=
        List.mem_filter.mpr ⟨List.mem_of_find?_eq_some hfind, List.find?_some hfind⟩
      have hpos : 1 ≤ directCount s u1 u2 :=
        List.length_pos.mpr (List.ne_nil_of_mem hmem)
      exact (Nat.max_eq_left hpos).symm
  | none =>
      rw [findOrCreate_of_find_none s u1 u2 hfind]
      have hall := List.find?_eq_none.mp hfind
      have hc1 : isDirectFor u1 u2 (createConversation s none false [u1, u2]).1 = true := by
        simp [isDirectFor, createConversation]
      have hfind2 : ((createConversation s none false [u1, u2]).2).conversations.find?
          (isDirectFor v1 v2) = some (createConversation s none false [u1, u2]).1 := by
        rw [hsym]
        show (s.conversations ++
          [(createConversation s none false [u1, u2]).1]).find?
            (isDirectFor u1 u2) = _
        rw [List.find?_append, List.find?_eq_none.mpr hall]
        simp [List.find?, hc1]
      rw [findOrCreate_of_find_some _ v1 v2 _ hfind2]
      refine ⟨rfl, rfl, ?_⟩
      have h0 : directCount s u1 u2 = 0 := by
        unfold directCount
        rw [List.filter_eq_nil_iff.mpr hall]
        rfl
      have h1 : directCount (createConversation s none false [u1, u2]).2 u1 u2 = 1 := by
        unfold directCount
        show (List.filter (isDirectFor u1 u2)
          (s.conversations ++ [(createConversation s none false [u1, u2]).1])).length = 1
        rw [List.filter_append, List.filter_eq_nil_iff.mpr hall]
        simp [List.filter, hc1]
      rw [h0, h1]
      rfl

/-- Claim C9: find-or-create of a direct conversation is idempotent and
symmetric — a second call with the same unordered pair (same or swapped
argument order) returns the same conversation id, creates no further
conversation, and the store ends with exactly max(previous count, 1)
non-group conversations for the pair, so at most one exists when the
invariant held before. -/
theorem C9_direct_idempotent (s : Storage) (u1 u2 : Nat) :
    (((findOrCreateDirectConversation
        (findOrCreateDirectConversation s u1 u2).2 u1 u2).1).id =
      ((findOrCreateDirectConversation s u1 u2).1).id ∧
     (findOrCreateDirectConversation
        (findOrCreateDirectConversation s u1 u2).2 u1 u2).2.conversations.length =
      (findOrCreateDirectConversation s u1 u2).2.conversations.length ∧
     directCount (findOrCreateDirectConversation
        (findOrCreateDirectConversation s u1 u2).2 u1 u2).2 u1 u2 =
      max (directCount s u1 u2) 1) ∧
    (((findOrCreateDirectConversation
        (findOrCreateDirectConversation s u1 u2).2 u2 u1).1).id =
      ((findOrCreateDirectConversation s u1 u2).1).id ∧
     (findOrCreateDirectConversation
        (findOrCreateDirectConversation s u1 u2).2 u2 u1).2.conversations.length =
      (findOrCreateDirectConversation s u1 u2).2.conversations.length ∧
     directCount (findOrCreateDirectConversation
        (findOrCreateDirectConversation s u1 u2).2 u2 u1).2 u1 u2 =
      max (directCount s u1 u2) 1) :=
  ⟨findOrCreate_twice s u1 u2 u1 u2 rfl,
   findOrCreate_twice s u1 u2 u2 u1 (isDirectFor_swap u1 u2)⟩

/-- A store with four persisted messages: three in conversation 10 (one
from the nonexistent sender 9, createdAt values out of insertion order)
and one in conversation 11. -/
def exStoreMsgs : Storage :=
  { exStore with messages :=
      [⟨30, 10, 1, some "a", "text", none, 3⟩,
       ⟨31, 10, 2, some "b", "text", none, 1⟩,
       ⟨32, 10, 9, some "c", "text", none, 2⟩,
       ⟨33, 11, 1, some "d", "text", none, 0⟩] }

/-- Claim C10: a default history read returns at most 50 entries, in
ascending created-at order, each an entry of the requested conversation
carrying its resolved sender; every message of the kept (most recent)
slice whose sender resolves is present, so exactly the messages whose
sender no longer exists are silently omitted. -/
theorem C10_history (s : Storage) (cid : Nat) :
    (getConversationMessagesDefault s cid).length ≤ 50 ∧
    (getConversationMessagesDefault s cid).Pairwise
      (fun a b => a.msg.createdAt ≤ b.msg.createdAt) ∧
    (∀ x ∈ getConversationMessagesDefault s cid,
      x.msg.conversationId = cid ∧ getUser s x.msg.senderId = some x.sender) ∧
    (∀ m ∈ sliceLast (sortByCreated
        (s.messages.filter (fun x => x.conversationId = cid))) 50,
      ∀ u, getUser s m.senderId = some u →
        HistoryEntry.mk m u ∈ getConversationMessagesDefault s cid) := by
  unfold getConversationMessagesDefault getConversationMessages
  dsimp only
  refine ⟨?_, ?_, ?_, ?_⟩
  · exact le_trans (List.length_filterMap_le _ _)
      (length_sliceLast_le _ _ (by decide))
  · have hsorted := pairwise_sortByCreated
      (s.messages.filter (fun x => x.conversationId = cid))
    have hsuffix := List.Pairwise.sublist (sliceLast_sublist _ 50) hsorted
    rw [List.pairwise_filterMap]
    refine hsuffix.imp ?_
    intro a a' hle b hb b' hb'
    rcases Option.map_eq_some'.mp hb with ⟨u, _, rfl⟩
    rcases Option.map_eq_some'.mp hb' with ⟨u', _, rfl⟩
    exact hle
  · intro x hx
    rcases List.mem_filterMap.mp hx with ⟨m, hm, hf⟩
    rcases Option.map_eq_some'.mp hf with ⟨u, hu, rfl⟩
    have hmsorted := List.Sublist.mem hm (sliceLast_sublist _ 50)
    have hmfilter := mem_sortByCreated.mp hmsorted
    have hcid := (List.mem_filter.mp hmfilter).2
    exact ⟨by simpa using hcid, hu⟩
  · intro m hm u hu
    exact List.mem_filterMap.mpr ⟨m, hm, by rw [hu]; rfl⟩

/-- Claim C10, witness: the theorem applied to conversation 10 of
`exStoreMsgs`; the read returns the two resolvable messages in ascending
created-at order and omits the message whose sender 9 does not exist. -/
theorem C10_witness :
    ((getConversationMessagesDefault exStoreMsgs 10).length ≤ 50 ∧
     (getConversationMessagesDefault exStoreMsgs 10).Pairwise
       (fun a b => a.msg.createdAt ≤ b.msg.createdAt) ∧
     (∀ x ∈ getConversationMessagesDefault exStoreMsgs 10,
       x.msg.conversationId = 10 ∧
       getUser exStoreMsgs x.msg.senderId = some x.sender) ∧
     (∀ m ∈ sliceLast (sortByCreated
         (exStoreMsgs.messages.filter (fun x => x.conversationId = 10))) 50,
       ∀ u, getUser exStoreMsgs m.senderId = some u →
         HistoryEntry.mk m u ∈ getConversationMessagesDefault exStoreMsgs 10)) ∧
    (getConversationMessagesDefault exStoreMsgs 10).length = 2 :=
  ⟨C10_history exStoreMsgs 10, by decide⟩

end Messenger
